import Mathlib

/-!
Verification of the order-construction, validation and multi-order
sequencing core of a futures trading toolkit (grid ladder placement,
TWAP slicing and pacing, OCO dual-order pairing, input validators).

Prices and quantities are modelled as rationals, the exchange as an
oracle mapping the index of each order-creation call to its outcome,
and a run's observable behaviour as a list of events (orders created,
placements rejected, pacing sleeps).  Python exceptions are modelled by
an explicit error type threaded through `Except`.
-/

namespace BinanceBot

/-- Errors that the Python code can raise: `ValidationError` from the
validators, `ZeroDivisionError` from arithmetic, `BinanceAPIException`
from the exchange, and any other unexpected exception. -/
inductive PyError where
  | validationError (msg : String)
  | zeroDivisionError
  | binanceAPIException (msg : String)
  | unexpectedError (msg : String)
deriving DecidableEq

/-- Parameter set of one `futures_create_order` call. -/
structure Order where
  symbol : String
  side : String
  type : String
  timeInForce : Option String
  quantity : ℚ
  price : Option ℚ
  stopPrice : Option ℚ
  reduceOnly : Option String
deriving DecidableEq

/-- Observable events of a strategy run: a successful order creation
(with the exchange-assigned id), a placement rejected by the exchange
(`BinanceAPIException`, caught inside a loop), and a pacing sleep. -/
inductive Event where
  | created (o : Order) (orderId : Nat)
  | failed (o : Order) (msg : String)
  | slept (seconds : Int)
deriving DecidableEq

/-- Outcome of one `futures_create_order` call as decided by the
exchange: success with an order id, a `BinanceAPIException`, or any
other (unexpected) exception. -/
inductive CallResult where
  | ok (orderId : Nat)
  | apiErr (msg : String)
  | otherErr (msg : String)
deriving DecidableEq

/-- The exchange, as a deterministic oracle from the index of the
order-creation call to its outcome. -/
abbrev Oracle := Nat → CallResult

/- ## Validators (src/validators.py) -/

/-- Python's `str.upper`, character by character over the string's
characters. -/
def pyUpper (s : String) : String :=
  ⟨s.data.map Char.toUpper⟩

/-- Python's `str.endswith`, over the strings' characters. -/
def pyEndsWith (s t : String) : Bool :=
  t.data.isSuffixOf s.data

/-- Translation of `validate_symbol`: non-empty, uppercased, matches
`[A-Z0-9]+`, ends in USDT. -/
def validate_symbol (symbol : String) : Except PyError String :=
  if symbol.data.isEmpty then
    .error (.validationError ("Symbol must be a non-empty string"))
  else
    let s := pyUpper symbol
    if s.data.all (fun c => c.isUpper || c.isDigit) then
      if pyEndsWith s ("USDT") then
        .ok s
      else
        .error (.validationError ("Symbol should end with USDT for USDT-M Futures"))
    else
      .error (.validationError ("Invalid symbol format"))

/-- Translation of `validate_side`: uppercased, must be BUY or SELL. -/
def validate_side (side : String) : Except PyError String :=
  if side.data.isEmpty then
    .error (.validationError ("Side must be a non-empty string"))
  else
    let s := pyUpper side
    if s = "BUY" ∨ s = "SELL" then
      .ok s
    else
      .error (.validationError ("Side must be BUY or SELL"))

/-- Translation of `validate_quantity` on an already-numeric input:
fails unless the quantity is positive. -/
def validate_quantity (quantity : ℚ) : Except PyError ℚ :=
  if quantity ≤ 0 then
    .error (.validationError ("Quantity must be greater than 0"))
  else
    .ok quantity

/-- Translation of `validate_price` on an already-numeric input:
fails unless the price is positive. -/
def validate_price (price : ℚ) (price_type : String) : Except PyError ℚ :=
  if price ≤ 0 then
    .error (.validationError (price_type ++ " must be greater than 0"))
  else
    .ok price

/-- Translation of `validate_stop_limit_prices`: for side `BUY` the
stop price must not be below the limit price; on every other side
value the `else` branch applies, so the stop price must not be above
the limit price. -/
def validate_stop_limit_prices (stop_price limit_price : ℚ) (side : String) :
    Except PyError Unit :=
  if side = "BUY" then
    if stop_price < limit_price then
      .error (.validationError ("For BUY stop-limit: stop price should be >= limit price"))
    else
      .ok ()
  else
    if stop_price > limit_price then
      .error (.validationError ("For SELL stop-limit: stop price should be <= limit price"))
    else
      .ok ()

/-- Translation of `validate_positive_integer` on an already-integer
input: fails unless the value is positive. -/
def validate_positive_integer (value : Int) (name : String) : Except PyError Int :=
  if value ≤ 0 then
    .error (.validationError (name ++ " must be greater than 0"))
  else
    .ok value

/- ## Grid strategy (src/advanced/grid_strategy.py) -/

/-- The grid price ladder of `setup_grid_strategy`, lines 49-50:
`price_step = (upper - lower) / (num_grids - 1)` and
`grid_prices = [lower + i * price_step for i in range(num_grids)]`. -/
def gridPrices (lower_price upper_price : ℚ) (num_grids : ℕ) : List ℚ :=
  let price_step := (upper_price - lower_price) / ((num_grids : ℚ) - 1)
  (List.range num_grids).map fun (i : ℕ) => lower_price + (i : ℚ) * price_step

/-- The GTC limit order placed at one grid level. -/
def gridOrder (symbol side : String) (quantity price : ℚ) : Order :=
  ⟨symbol, side, "LIMIT", some "GTC", quantity, some price, none, none⟩

/-- The per-level loop of `setup_grid_strategy`, lines 70-103.  A level
below the current price is a limit BUY, a level above a limit SELL, a
level equal to the current price makes no call.  A `BinanceAPIException`
from a placement is caught and the loop continues; any other exception
is not caught here and aborts the run.  Returns the accumulated
`buy_orders`, `sell_orders`, and the event trace; `k` counts the
order-creation calls made so far. -/
def placeGridOrders (oracle : Oracle) (symbol : String) (quantity current_price : ℚ) :
    List ℚ → Nat → Except PyError (List Nat × List Nat × List Event)
  | [], _ => .ok ([], [], [])
  | price :: rest, k =>
    if price < current_price then
      match oracle k with
      | .ok oid =>
        match placeGridOrders oracle symbol quantity current_price rest (k + 1) with
        | .ok (buys, sells, evs) =>
          .ok (oid :: buys, sells, .created (gridOrder symbol "BUY" quantity price) oid :: evs)
        | .error e => .error e
      | .apiErr m =>
        match placeGridOrders oracle symbol quantity current_price rest (k + 1) with
        | .ok (buys, sells, evs) =>
          .ok (buys, sells, .failed (gridOrder symbol "BUY" quantity price) m :: evs)
        | .error e => .error e
      | .otherErr m => .error (.unexpectedError m)
    else if current_price < price then
      match oracle k with
      | .ok oid =>
        match placeGridOrders oracle symbol quantity current_price rest (k + 1) with
        | .ok (buys, sells, evs) =>
          .ok (buys, oid :: sells, .created (gridOrder symbol "SELL" quantity price) oid :: evs)
        | .error e => .error e
      | .apiErr m =>
        match placeGridOrders oracle symbol quantity current_price rest (k + 1) with
        | .ok (buys, sells, evs) =>
          .ok (buys, sells, .failed (gridOrder symbol "SELL" quantity price) m :: evs)
        | .error e => .error e
      | .otherErr m => .error (.unexpectedError m)
    else
      placeGridOrders oracle symbol quantity current_price rest k

/-- The result dictionary of `setup_grid_strategy`. -/
structure GridResult where
  buy_orders : List Nat
  sell_orders : List Nat
  grid_prices : List ℚ
  current_price : ℚ
deriving DecidableEq

/-- Translation of `setup_grid_strategy`: validate the five inputs,
require `lower_price < upper_price`, compute the ladder (raising
`ZeroDivisionError` when `num_grids - 1 = 0`), fetch the current price
(`tickerPrice` stands for the `futures_symbol_ticker` call), run the
per-level loop, and return the result with the event trace. -/
def setup_grid_strategy (oracle : Oracle) (tickerPrice : Except PyError ℚ)
    (symbol : String) (quantity_per_grid lower_price upper_price : ℚ)
    (num_grids : Int) : Except PyError (GridResult × List Event) :=
  match validate_symbol symbol with
  | .error e => .error e
  | .ok sym =>
    match validate_quantity quantity_per_grid with
    | .error e => .error e
    | .ok qty =>
      match validate_price lower_price ("lower price") with
      | .error e => .error e
      | .ok lower =>
        match validate_price upper_price ("upper price") with
        | .error e => .error e
        | .ok upper =>
          match validate_positive_integer num_grids ("number of grids") with
          | .error e => .error e
          | .ok n =>
            if upper ≤ lower then
              .error (.validationError ("Upper price must be greater than lower price"))
            else if n - 1 = 0 then
              .error .zeroDivisionError
            else
              match tickerPrice with
              | .error e => .error e
              | .ok current_price =>
                match placeGridOrders oracle sym qty current_price
                    (gridPrices lower upper n.toNat) 0 with
                | .ok (buys, sells, evs) =>
                  .ok (⟨buys, sells, gridPrices lower upper n.toNat, current_price⟩, evs)
                | .error e => .error e

/- ## TWAP strategy (src/advanced/twap.py) -/

/-- The MARKET order submitted for one TWAP slice. -/
def twapMarketOrder (symbol side : String) (quantity : ℚ) : Order :=
  ⟨symbol, side, "MARKET", none, quantity, none, none, none⟩

/-- The per-slice loop of `execute_twap`, lines 58-82, over the list of
iteration indices.  On a successful placement the order id is appended
and, when the iteration is not the last (`i < num_orders - 1`), the
pacing sleep runs; a `BinanceAPIException` is caught (no sleep) and the
loop continues; any other exception aborts the run. -/
def twapLoop (oracle : Oracle) (symbol side : String) (quantity_per_order : ℚ)
    (num_orders : Nat) (interval_seconds : Int) :
    List Nat → Except PyError (List Nat × List Event)
  | [] => .ok ([], [])
  | i :: rest =>
    match oracle i with
    | .ok oid =>
      match twapLoop oracle symbol side quantity_per_order num_orders interval_seconds rest with
      | .ok (executed, evs) =>
        .ok (oid :: executed,
          .created (twapMarketOrder symbol side quantity_per_order) oid ::
            (if i < num_orders - 1 then .slept interval_seconds :: evs else evs))
      | .error e => .error e
    | .apiErr m =>
      match twapLoop oracle symbol side quantity_per_order num_orders interval_seconds rest with
      | .ok (executed, evs) =>
        .ok (executed, .failed (twapMarketOrder symbol side quantity_per_order) m :: evs)
      | .error e => .error e
    | .otherErr m => .error (.unexpectedError m)

/-- Translation of `execute_twap`: validate the five inputs, compute
`quantity_per_order = total_quantity / num_orders`, and run the slice
loop over iteration indices `0 .. num_orders - 1`. -/
def execute_twap (oracle : Oracle) (symbol side : String) (total_quantity : ℚ)
    (num_orders interval_seconds : Int) : Except PyError (List Nat × List Event) :=
  match validate_symbol symbol with
  | .error e => .error e
  | .ok sym =>
    match validate_side side with
    | .error e => .error e
    | .ok vside =>
      match validate_quantity total_quantity with
      | .error e => .error e
      | .ok total =>
        match validate_positive_integer num_orders ("number of orders") with
        | .error e => .error e
        | .ok n =>
          match validate_positive_integer interval_seconds ("interval seconds") with
          | .error e => .error e
          | .ok interval =>
            let quantity_per_order := total / (n : ℚ)
            match twapLoop oracle sym vside quantity_per_order n.toNat interval
                (List.range n.toNat) with
            | .ok (executed, evs) => .ok (executed, evs)
            | .error e => .error e

/- ## OCO pairing (src/advanced/oco.py) -/

/-- Translation of `place_oco_order`: validate the six inputs, take
`close_side` opposite to the validated side, submit the TAKE_PROFIT
reduce-only order (limit price and trigger both `price`, oracle call 0),
then the STOP reduce-only order (trigger `stop_price`, limit
`stop_limit_price`, oracle call 1).  A failure of either submission
propagates (the `except` handlers re-raise), so a take-profit failure
means the stop order is never attempted. -/
def place_oco_order (oracle : Oracle) (symbol side : String)
    (quantity price stop_price stop_limit_price : ℚ) :
    Except PyError ((Nat × Nat) × List Event) :=
  match validate_symbol symbol with
  | .error e => .error e
  | .ok sym =>
    match validate_side side with
    | .error e => .error e
    | .ok vside =>
      match validate_quantity quantity with
      | .error e => .error e
      | .ok qty =>
        match validate_price price ("limit price") with
        | .error e => .error e
        | .ok p =>
          match validate_price stop_price ("stop price") with
          | .error e => .error e
          | .ok sp =>
            match validate_price stop_limit_price ("stop limit price") with
            | .error e => .error e
            | .ok slp =>
              let close_side := if vside = "BUY" then "SELL" else "BUY"
              let take_profit : Order :=
                ⟨sym, close_side, "TAKE_PROFIT", some "GTC", qty, some p, some p, some "true"⟩
              match oracle 0 with
              | .apiErr m => .error (.binanceAPIException m)
              | .otherErr m => .error (.unexpectedError m)
              | .ok tpId =>
                let stop_loss : Order :=
                  ⟨sym, close_side, "STOP", some "GTC", qty, some slp, some sp, some "true"⟩
                match oracle 1 with
                | .apiErr m => .error (.binanceAPIException m)
                | .otherErr m => .error (.unexpectedError m)
                | .ok slId =>
                  .ok ((tpId, slId), [.created take_profit tpId, .created stop_loss slId])

/- ## Observation helpers -/

/-- The orders of the successful creations in a trace, in order. -/
def createdOrders (events : List Event) : List Order :=
  events.filterMap fun e =>
    match e with
    | .created o _ => some o
    | _ => none

/-- The order ids of the successful creations with the given side. -/
def createdIdsFor (side : String) (events : List Event) : List Nat :=
  events.filterMap fun e =>
    match e with
    | .created o oid => if o.side = side then some oid else none
    | _ => none

/-- The order ids of all successful creations in a trace. -/
def createdIds (events : List Event) : List Nat :=
  events.filterMap fun e =>
    match e with
    | .created _ oid => some oid
    | _ => none

/-- Whether an event is a placement rejected by the exchange. -/
def isFailedEvent : Event → Bool
  | .failed _ _ => true
  | _ => false

/-- Holds when every pacing sleep in a trace immediately follows a
successful order creation (so no sleep opens the trace, follows a
failed placement, or follows another sleep). -/
def sleptOnlyAfterCreated : List Event → Bool
  | [] => true
  | .slept _ :: _ => false
  | .created _ _ :: .slept _ :: rest => sleptOnlyAfterCreated rest
  | _ :: rest => sleptOnlyAfterCreated rest

/-- Whether a trace does not begin with a sleep. -/
def headNotSlept : List Event → Bool
  | .slept _ :: _ => false
  | _ => true

/- ## Specification-side definitions (for refinement statements) -/

/-- Modelled from the spec's placement rule, for comparison with the
code's loop: for each level, a GTC limit BUY below the current price,
a GTC limit SELL above it, and nothing at a level exactly equal. -/
def gridOrdersSpec (symbol : String) (quantity current_price : ℚ)
    (prices : List ℚ) : List Order :=
  prices.filterMap fun p =>
    if p < current_price then some (gridOrder symbol "BUY" quantity p)
    else if current_price < p then some (gridOrder symbol "SELL" quantity p)
    else none

/-- Modelled from the spec's pacing rule, for comparison with the
code's loop: the given separator between consecutive elements and not
after the last. -/
def pacedTrace (sep : Event) : List Event → List Event
  | [] => []
  | [e] => [e]
  | e :: rest => e :: sep :: pacedTrace sep rest

/- ## Helper lemmas -/

lemma getD_map_range (f : ℕ → ℚ) (n i : ℕ) (h : i < n) :
    ((List.range n).map f).getD i 0 = f i := by
  rw [List.getD_eq_getElem?_getD, List.getElem?_map, List.getElem?_range h]
  rfl

lemma gridPrices_getD (lower upper : ℚ) (n i : ℕ) (h : i < n) :
    (gridPrices lower upper n).getD i 0 =
      lower + (i : ℚ) * ((upper - lower) / ((n : ℚ) - 1)) :=
  getD_map_range _ n i h

lemma gridPrices_length (lower upper : ℚ) (n : ℕ) :
    (gridPrices lower upper n).length = n := by
  rw [gridPrices]
  rw [List.length_map, List.length_range]

/- ## C1: the grid price ladder -/

/-- C1: for validated inputs with `lowerPrice < upperPrice` and
`numGrids ≥ 2`, `setup_grid_strategy`'s ladder `gridPrices` has exactly
`numGrids` levels, level `i` is `lowerPrice + i * step` with
`step = (upperPrice - lowerPrice) / (numGrids - 1)`, the first level is
`lowerPrice`, the last is `upperPrice`, and consecutive levels differ
by the constant step. -/
theorem grid_prices_levels (lower upper : ℚ) (n : ℕ)
    (h1 : lower < upper) (h2 : 2 ≤ n) :
    (gridPrices lower upper n).length = n ∧
    (∀ i, i < n → (gridPrices lower upper n).getD i 0 =
      lower + (i : ℚ) * ((upper - lower) / ((n : ℚ) - 1))) ∧
    (gridPrices lower upper n).getD 0 0 = lower ∧
    (gridPrices lower upper n).getD (n - 1) 0 = upper ∧
    (∀ i, i + 1 < n →
      (gridPrices lower upper n).getD (i + 1) 0 - (gridPrices lower upper n).getD i 0 =
        (upper - lower) / ((n : ℚ) - 1)) := by
  have hne : ((n : ℚ) - 1) ≠ 0 := by
    have h2q : (2 : ℚ) ≤ (n : ℚ) := by exact_mod_cast h2
    intro h
    nlinarith
  refine ⟨gridPrices_length lower upper n, fun i hi => gridPrices_getD lower upper n i hi,
    ?_, ?_, ?_⟩
  · rw [gridPrices_getD lower upper n 0 (by omega)]; simp
  · rw [gridPrices_getD lower upper n (n - 1) (by omega)]
    have hcast : ((n - 1 : ℕ) : ℚ) = (n : ℚ) - 1 := by
      have h1n : (1 : ℕ) ≤ n := by omega
      push_cast [h1n]; ring
    rw [hcast]
    field_simp
  · intro i hi
    rw [gridPrices_getD lower upper n (i + 1) (by omega),
      gridPrices_getD lower upper n i (by omega)]
    push_cast
    ring

/-- Witness for C1 on the spec's own example ladder 43000..47000 with
three levels. -/
theorem grid_prices_levels_witness :
    (gridPrices 43000 47000 3).length = 3 ∧
    (gridPrices 43000 47000 3).getD 0 0 = 43000 ∧
    (gridPrices 43000 47000 3).getD 2 0 = 47000 ∧
    (gridPrices 43000 47000 3).getD 1 0 - (gridPrices 43000 47000 3).getD 0 0 = 2000 := by
  obtain ⟨hlen, hget, hfst, hlst, hstep⟩ :=
    grid_prices_levels 43000 47000 3 (by norm_num) (by norm_num)
  refine ⟨hlen, hfst, by simpa using hlst, ?_⟩
  have h := hstep 0 (by norm_num)
  rw [h]
  norm_num


lemma placeGridOrders_success (oracle : Oracle) (ids : Nat → Nat)
    (hok : ∀ k, oracle k = .ok (ids k)) (symbol : String) (qty cur : ℚ) :
    ∀ (prices : List ℚ) (k : Nat), ∃ buys sells evs,
      placeGridOrders oracle symbol qty cur prices k = .ok (buys, sells, evs) ∧
      createdOrders evs = gridOrdersSpec symbol qty cur prices ∧
      buys = createdIdsFor "BUY" evs ∧ sells = createdIdsFor "SELL" evs := by
  intro prices
  induction prices with
  | nil => exact fun k => ⟨[], [], [], rfl, rfl, rfl, rfl⟩
  | cons p rest ih =>
    intro k
    by_cases h1 : p < cur
    · obtain ⟨buys, sells, evs, heq, hord, hbuy, hsell⟩ := ih (k + 1)
      refine ⟨ids k :: buys, sells,
        .created (gridOrder symbol "BUY" qty p) (ids k) :: evs, ?_, ?_, ?_, ?_⟩
      · simp only [placeGridOrders, if_pos h1, hok k, heq]
      · simp only [createdOrders, List.filterMap_cons] at hord ⊢
        simp only [gridOrdersSpec, List.filterMap_cons, if_pos h1]
        simpa [createdOrders] using hord
      · simp only [createdIdsFor, List.filterMap_cons, gridOrder] at hbuy ⊢
        simp only [hbuy]
        rfl
      · simp only [createdIdsFor, List.filterMap_cons, gridOrder] at hsell ⊢
        simp only [hsell]
        rfl
    · by_cases h2 : cur < p
      · obtain ⟨buys, sells, evs, heq, hord, hbuy, hsell⟩ := ih (k + 1)
        refine ⟨buys, ids k :: sells,
          .created (gridOrder symbol "SELL" qty p) (ids k) :: evs, ?_, ?_, ?_, ?_⟩
        · simp only [placeGridOrders, if_neg h1, if_pos h2, hok k, heq]
        · simp only [createdOrders, List.filterMap_cons] at hord ⊢
          simp only [gridOrdersSpec, List.filterMap_cons, if_neg h1, if_pos h2]
          simpa [createdOrders] using hord
        · simp only [createdIdsFor, List.filterMap_cons, gridOrder] at hbuy ⊢
          simp only [hbuy]
          rfl
        · simp only [createdIdsFor, List.filterMap_cons, gridOrder] at hsell ⊢
          simp only [hsell]
          rfl
      · obtain ⟨buys, sells, evs, heq, hord, hbuy, hsell⟩ := ih k
        refine ⟨buys, sells, evs, ?_, ?_, hbuy, hsell⟩
        · simp only [placeGridOrders, if_neg h1, if_neg h2, heq]
        · simp only [gridOrdersSpec, List.filterMap_cons, if_neg h1, if_neg h2]
          exact hord

lemma setup_grid_strategy_eq (oracle : Oracle) (symbol sym : String)
    (q vq lp vlow up vup : ℚ) (ng n : Int) (cur : ℚ)
    (hsym : validate_symbol symbol = .ok sym)
    (hq : validate_quantity q = .ok vq)
    (hlow : validate_price lp ("lower price") = .ok vlow)
    (hup : validate_price up ("upper price") = .ok vup)
    (hn : validate_positive_integer ng ("number of grids") = .ok n)
    (hlt : vlow < vup) (h2 : 2 ≤ n) :
    setup_grid_strategy oracle (.ok cur) symbol q lp up ng =
      match placeGridOrders oracle sym vq cur (gridPrices vlow vup n.toNat) 0 with
      | .ok (buys, sells, evs) =>
        .ok (⟨buys, sells, gridPrices vlow vup n.toNat, cur⟩, evs)
      | .error e => .error e := by
  rw [setup_grid_strategy, hsym, hq, hlow, hup, hn]
  dsimp only
  rw [if_neg (not_le.mpr hlt), if_neg (show ¬(n - 1 = 0) by omega)]


/-- C2: for a run of `setup_grid_strategy` on validated inputs in
which the exchange accepts every placement, with the current price
sampled once before the loop: each level strictly below the current
price is submitted as a GTC limit BUY at that level with
`quantityPerGrid`, each level strictly above as a GTC limit SELL, and
a level exactly equal to the current price is skipped (no order for
it); the placed order ids are appended to `buy_orders` and
`sell_orders` respectively, returned together with `grid_prices` and
`current_price`. -/
theorem grid_level_placement (oracle : Oracle) (ids : Nat → Nat)
    (hok : ∀ k, oracle k = .ok (ids k)) (symbol sym : String)
    (q vq lp vlow up vup : ℚ) (ng n : Int) (cur : ℚ)
    (hsym : validate_symbol symbol = .ok sym)
    (hq : validate_quantity q = .ok vq)
    (hlow : validate_price lp ("lower price") = .ok vlow)
    (hup : validate_price up ("upper price") = .ok vup)
    (hn : validate_positive_integer ng ("number of grids") = .ok n)
    (hlt : vlow < vup) (h2 : 2 ≤ n) :
    ∃ res evs, setup_grid_strategy oracle (.ok cur) symbol q lp up ng = .ok (res, evs) ∧
      res.grid_prices = gridPrices vlow vup n.toNat ∧
      res.current_price = cur ∧
      createdOrders evs = gridOrdersSpec sym vq cur (gridPrices vlow vup n.toNat) ∧
      res.buy_orders = createdIdsFor "BUY" evs ∧
      res.sell_orders = createdIdsFor "SELL" evs := by
  obtain ⟨buys, sells, evs, heq, hord, hbuy, hsell⟩ :=
    placeGridOrders_success oracle ids hok sym vq cur (gridPrices vlow vup n.toNat) 0
  refine ⟨⟨buys, sells, gridPrices vlow vup n.toNat, cur⟩, evs, ?_, rfl, rfl, hord, hbuy, hsell⟩
  rw [setup_grid_strategy_eq oracle symbol sym q vq lp vlow up vup ng n cur
    hsym hq hlow hup hn hlt h2, heq]

/-- Witness for C2: the spec's example — levels 43000/45000/47000
around current price 45000 on an always-accepting exchange. -/
theorem grid_level_placement_witness :
    ∃ res evs, setup_grid_strategy (fun k => .ok k) (.ok 45000) "BTCUSDT" 1 43000 47000 3 =
        .ok (res, evs) ∧
      res.grid_prices = gridPrices 43000 47000 (3 : Int).toNat ∧
      res.current_price = 45000 ∧
      createdOrders evs =
        gridOrdersSpec "BTCUSDT" 1 45000 (gridPrices 43000 47000 (3 : Int).toNat) ∧
      res.buy_orders = createdIdsFor "BUY" evs ∧
      res.sell_orders = createdIdsFor "SELL" evs :=
  grid_level_placement (fun k => .ok k) (fun k => k) (fun _ => rfl) "BTCUSDT" "BTCUSDT"
    1 1 43000 43000 47000 47000 3 3 45000 rfl rfl rfl rfl rfl (by norm_num) (by norm_num)



lemma filter_ne_cons_of_ne (p cur : ℚ) (rest : List ℚ) (h : p ≠ cur) :
    List.filter (fun q => decide (q ≠ cur)) (p :: rest) =
      p :: List.filter (fun q => decide (q ≠ cur)) rest := by
  simp [List.filter_cons, h]

lemma filter_ne_cons_of_eq (p cur : ℚ) (rest : List ℚ) (h : p = cur) :
    List.filter (fun q => decide (q ≠ cur)) (p :: rest) =
      List.filter (fun q => decide (q ≠ cur)) rest := by
  simp [List.filter_cons, h]

lemma placeGridOrders_no_other (oracle : Oracle)
    (hno : ∀ k m, oracle k ≠ .otherErr m) (symbol : String) (qty cur : ℚ) :
    ∀ (prices : List ℚ) (k : Nat), ∃ buys sells evs,
      placeGridOrders oracle symbol qty cur prices k = .ok (buys, sells, evs) ∧
      buys = createdIdsFor "BUY" evs ∧ sells = createdIdsFor "SELL" evs ∧
      evs.length = (prices.filter fun q => decide (q ≠ cur)).length := by
  intro prices
  induction prices with
  | nil => exact fun k => ⟨[], [], [], rfl, rfl, rfl, rfl⟩
  | cons p rest ih =>
    intro k
    by_cases h1 : p < cur
    · obtain ⟨buys, sells, evs, heq, hbuy, hsell, hlen⟩ := ih (k + 1)
      rcases horacle : oracle k with oid | m | m
      · refine ⟨oid :: buys, sells,
          .created (gridOrder symbol "BUY" qty p) oid :: evs, ?_, ?_, ?_, ?_⟩
        · simp only [placeGridOrders, if_pos h1, horacle, heq]
        · simp only [createdIdsFor, List.filterMap_cons, gridOrder] at hbuy ⊢
          simp only [hbuy]
          rfl
        · simp only [createdIdsFor, List.filterMap_cons, gridOrder] at hsell ⊢
          simp only [hsell]
          rfl
        · rw [filter_ne_cons_of_ne p cur rest (ne_of_lt h1)]
          simp [hlen]
      · refine ⟨buys, sells,
          .failed (gridOrder symbol "BUY" qty p) m :: evs, ?_, ?_, ?_, ?_⟩
        · simp only [placeGridOrders, if_pos h1, horacle, heq]
        · simp only [createdIdsFor, List.filterMap_cons] at hbuy ⊢
          exact hbuy
        · simp only [createdIdsFor, List.filterMap_cons] at hsell ⊢
          exact hsell
        · rw [filter_ne_cons_of_ne p cur rest (ne_of_lt h1)]
          simp [hlen]
      · exact absurd horacle (hno k m)
    · by_cases h2 : cur < p
      · obtain ⟨buys, sells, evs, heq, hbuy, hsell, hlen⟩ := ih (k + 1)
        rcases horacle : oracle k with oid | m | m
        · refine ⟨buys, oid :: sells,
            .created (gridOrder symbol "SELL" qty p) oid :: evs, ?_, ?_, ?_, ?_⟩
          · simp only [placeGridOrders, if_neg h1, if_pos h2, horacle, heq]
          · simp only [createdIdsFor, List.filterMap_cons, gridOrder] at hbuy ⊢
            simp only [hbuy]
            rfl
          · simp only [createdIdsFor, List.filterMap_cons, gridOrder] at hsell ⊢
            simp only [hsell]
            rfl
          · rw [filter_ne_cons_of_ne p cur rest (ne_of_gt h2)]
            simp [hlen]
        · refine ⟨buys, sells,
            .failed (gridOrder symbol "SELL" qty p) m :: evs, ?_, ?_, ?_, ?_⟩
          · simp only [placeGridOrders, if_neg h1, if_pos h2, horacle, heq]
          · simp only [createdIdsFor, List.filterMap_cons] at hbuy ⊢
            exact hbuy
          · simp only [createdIdsFor, List.filterMap_cons] at hsell ⊢
            exact hsell
          · rw [filter_ne_cons_of_ne p cur rest (ne_of_gt h2)]
            simp [hlen]
        · exact absurd horacle (hno k m)
      · have hpe : p = cur := le_antisymm (not_lt.mp h2) (not_lt.mp h1)
        obtain ⟨buys, sells, evs, heq, hbuy, hsell, hlen⟩ := ih k
        refine ⟨buys, sells, evs, ?_, hbuy, hsell, ?_⟩
        · simp only [placeGridOrders, if_neg h1, if_neg h2, heq]
        · rw [filter_ne_cons_of_eq p cur rest hpe]
          exact hlen


lemma placeGridOrders_single_fail (oracle : Oracle) (ids : Nat → Nat) (j : Nat) (msg : String)
    (hj : oracle j = .apiErr msg) (hok : ∀ k, k ≠ j → oracle k = .ok (ids k))
    (symbol : String) (qty cur : ℚ) :
    ∀ (prices : List ℚ) (k : Nat), ∃ buys sells evs,
      placeGridOrders oracle symbol qty cur prices k = .ok (buys, sells, evs) ∧
      evs.countP isFailedEvent ≤ 1 ∧ (j < k → evs.countP isFailedEvent = 0) := by
  intro prices
  induction prices with
  | nil => exact fun k => ⟨[], [], [], rfl, by simp, fun _ => by simp⟩
  | cons p rest ih =>
    intro k
    by_cases h1 : p < cur
    · obtain ⟨buys, sells, evs, heq, hle, h0⟩ := ih (k + 1)
      by_cases hk : k = j
      · subst hk
        refine ⟨buys, sells, .failed (gridOrder symbol "BUY" qty p) msg :: evs, ?_, ?_, ?_⟩
        · simp only [placeGridOrders, if_pos h1, hj, heq]
        · have hz : evs.countP isFailedEvent = 0 := h0 (by omega)
          simp [List.countP_cons, isFailedEvent, hz]
        · intro hlt
          omega
      · refine ⟨ids k :: buys, sells,
          .created (gridOrder symbol "BUY" qty p) (ids k) :: evs, ?_, ?_, ?_⟩
        · simp only [placeGridOrders, if_pos h1, hok k hk, heq]
        · simpa [List.countP_cons, isFailedEvent] using hle
        · intro hlt
          have hz : evs.countP isFailedEvent = 0 := h0 (by omega)
          simp [List.countP_cons, isFailedEvent, hz]
    · by_cases h2 : cur < p
      · obtain ⟨buys, sells, evs, heq, hle, h0⟩ := ih (k + 1)
        by_cases hk : k = j
        · subst hk
          refine ⟨buys, sells, .failed (gridOrder symbol "SELL" qty p) msg :: evs, ?_, ?_, ?_⟩
          · simp only [placeGridOrders, if_neg h1, if_pos h2, hj, heq]
          · have hz : evs.countP isFailedEvent = 0 := h0 (by omega)
            simp [List.countP_cons, isFailedEvent, hz]
          · intro hlt
            omega
        · refine ⟨buys, ids k :: sells,
            .created (gridOrder symbol "SELL" qty p) (ids k) :: evs, ?_, ?_, ?_⟩
          · simp only [placeGridOrders, if_neg h1, if_pos h2, hok k hk, heq]
          · simpa [List.countP_cons, isFailedEvent] using hle
          · intro hlt
            have hz : evs.countP isFailedEvent = 0 := h0 (by omega)
            simp [List.countP_cons, isFailedEvent, hz]
      · obtain ⟨buys, sells, evs, heq, hle, h0⟩ := ih k
        refine ⟨buys, sells, evs, ?_, hle, h0⟩
        simp only [placeGridOrders, if_neg h1, if_neg h2, heq]


/-- C5: in a grid run where the exchange rejects exactly one placement
(call index `j`) with a `BinanceAPIException` and accepts every other,
the run still succeeds, every level other than one equal to the current
price is attempted (one event per such level, at most one of them a
failure), and the returned `buy_orders` and `sell_orders` hold exactly
the ids of the successfully placed BUY and SELL orders, from both
before and after the failing level. -/
theorem grid_single_failure_partial (oracle : Oracle) (ids : Nat → Nat) (j : Nat) (msg : String)
    (hj : oracle j = .apiErr msg) (hok : ∀ k, k ≠ j → oracle k = .ok (ids k))
    (symbol sym : String) (q vq lp vlow up vup : ℚ) (ng n : Int) (cur : ℚ)
    (hsym : validate_symbol symbol = .ok sym)
    (hq : validate_quantity q = .ok vq)
    (hlow : validate_price lp ("lower price") = .ok vlow)
    (hup : validate_price up ("upper price") = .ok vup)
    (hn : validate_positive_integer ng ("number of grids") = .ok n)
    (hlt : vlow < vup) (h2 : 2 ≤ n) :
    ∃ res evs, setup_grid_strategy oracle (.ok cur) symbol q lp up ng = .ok (res, evs) ∧
      evs.length =
        ((gridPrices vlow vup n.toNat).filter fun p => decide (p ≠ cur)).length ∧
      evs.countP isFailedEvent ≤ 1 ∧
      res.buy_orders = createdIdsFor "BUY" evs ∧
      res.sell_orders = createdIdsFor "SELL" evs := by
  have hno : ∀ k m, oracle k ≠ .otherErr m := by
    intro k m h
    by_cases hk : k = j
    · rw [hk, hj] at h
      exact CallResult.noConfusion h
    · rw [hok k hk] at h
      exact CallResult.noConfusion h
  obtain ⟨buys, sells, evs, heq, hbuy, hsell, hlen⟩ :=
    placeGridOrders_no_other oracle hno sym vq cur (gridPrices vlow vup n.toNat) 0
  obtain ⟨buys2, sells2, evs2, heq2, hle, h0⟩ :=
    placeGridOrders_single_fail oracle ids j msg hj hok sym vq cur
      (gridPrices vlow vup n.toNat) 0
  rw [heq] at heq2
  simp only [Except.ok.injEq, Prod.mk.injEq] at heq2
  obtain ⟨hb2, hs2, he2⟩ := heq2
  refine ⟨⟨buys, sells, gridPrices vlow vup n.toNat, cur⟩, evs, ?_, hlen, ?_, hbuy, hsell⟩
  · rw [setup_grid_strategy_eq oracle symbol sym q vq lp vlow up vup ng n cur
      hsym hq hlow hup hn hlt h2, heq]
  · rw [he2]
    exact hle

/-- Witness for C5: five levels 41000..49000 around current price
45000, with the second placement (call index 1) rejected. -/
theorem grid_single_failure_partial_witness :
    ∃ res evs,
      setup_grid_strategy (fun k => if k = 1 then .apiErr "rejected" else .ok k)
          (.ok 45000) "BTCUSDT" 1 41000 49000 5 = .ok (res, evs) ∧
      evs.length =
        ((gridPrices 41000 49000 (5 : Int).toNat).filter fun p => decide (p ≠ 45000)).length ∧
      evs.countP isFailedEvent ≤ 1 ∧
      res.buy_orders = createdIdsFor "BUY" evs ∧
      res.sell_orders = createdIdsFor "SELL" evs :=
  grid_single_failure_partial (fun k => if k = 1 then .apiErr "rejected" else .ok k)
    (fun k => k) 1 "rejected" rfl (fun k hk => by simp [hk]) "BTCUSDT" "BTCUSDT"
    1 1 41000 41000 49000 49000 5 5 45000 rfl rfl rfl rfl rfl (by norm_num) (by norm_num)



lemma sOAC_created_slept (o : Order) (oid : Nat) (s : Int) (t : List Event) :
    sleptOnlyAfterCreated (.created o oid :: .slept s :: t) = sleptOnlyAfterCreated t := rfl

lemma sOAC_cons_created (o : Order) (oid : Nat) (t : List Event)
    (ht : headNotSlept t = true) :
    sleptOnlyAfterCreated (.created o oid :: t) = sleptOnlyAfterCreated t := by
  cases t with
  | nil => rfl
  | cons f t' =>
    cases f with
    | created o2 i2 => rfl
    | failed o2 m2 => rfl
    | slept s2 => exact absurd ht (by simp [headNotSlept])

lemma sOAC_cons_failed (o : Order) (m : String) (t : List Event)
    (ht : headNotSlept t = true) :
    sleptOnlyAfterCreated (.failed o m :: t) = sleptOnlyAfterCreated t := by
  cases t with
  | nil => rfl
  | cons f t' =>
    cases f with
    | created o2 i2 => rfl
    | failed o2 m2 => rfl
    | slept s2 => exact absurd ht (by simp [headNotSlept])

lemma twapLoop_no_other (oracle : Oracle) (hno : ∀ i m, oracle i ≠ .otherErr m)
    (symbol side : String) (qp : ℚ) (n : Nat) (interval : Int) :
    ∀ (l : List Nat), ∃ executed evs,
      twapLoop oracle symbol side qp n interval l = .ok (executed, evs) ∧
      executed = createdIds evs ∧ headNotSlept evs = true ∧
      sleptOnlyAfterCreated evs = true := by
  intro l
  induction l with
  | nil => exact ⟨[], [], rfl, rfl, rfl, rfl⟩
  | cons i rest ih =>
    obtain ⟨executed, evs, heq, hids, hhead, hsoac⟩ := ih
    rcases horacle : oracle i with oid | m | m
    · by_cases hlast : i < n - 1
      · refine ⟨oid :: executed,
          .created (twapMarketOrder symbol side qp) oid :: .slept interval :: evs,
          ?_, ?_, rfl, ?_⟩
        · simp only [twapLoop, horacle, heq, if_pos hlast]
        · simp only [createdIds, List.filterMap_cons, hids]
        · rw [sOAC_created_slept]
          exact hsoac
      · refine ⟨oid :: executed,
          .created (twapMarketOrder symbol side qp) oid :: evs, ?_, ?_, rfl, ?_⟩
        · simp only [twapLoop, horacle, heq, if_neg hlast]
        · simp only [createdIds, List.filterMap_cons, hids]
        · rw [sOAC_cons_created _ _ _ hhead]
          exact hsoac
    · refine ⟨executed, .failed (twapMarketOrder symbol side qp) m :: evs, ?_, ?_, rfl, ?_⟩
      · simp only [twapLoop, horacle, heq]
      · simp only [createdIds, List.filterMap_cons, hids]
      · rw [sOAC_cons_failed _ _ _ hhead]
        exact hsoac
    · exact absurd horacle (hno i m)


lemma twapLoop_cons (oracle : Oracle) (symbol side : String) (qp : ℚ)
    (n : Nat) (interval : Int) (i : Nat) (rest : List Nat) :
    twapLoop oracle symbol side qp n interval (i :: rest) =
      match oracle i with
      | .ok oid =>
        match twapLoop oracle symbol side qp n interval rest with
        | .ok (executed, evs) =>
          .ok (oid :: executed,
            .created (twapMarketOrder symbol side qp) oid ::
              (if i < n - 1 then .slept interval :: evs else evs))
        | .error e => .error e
      | .apiErr m =>
        match twapLoop oracle symbol side qp n interval rest with
        | .ok (executed, evs) =>
          .ok (executed, .failed (twapMarketOrder symbol side qp) m :: evs)
        | .error e => .error e
      | .otherErr m => .error (.unexpectedError m) := rfl

lemma twapLoop_success_trace (oracle : Oracle) (ids : Nat → Nat)
    (hok : ∀ i, oracle i = .ok (ids i)) (symbol side : String) (qp : ℚ)
    (n : Nat) (interval : Int) :
    ∀ (k i : Nat), i + k = n →
    twapLoop oracle symbol side qp n interval (List.range' i k) =
      .ok ((List.range' i k).map ids,
        pacedTrace (.slept interval)
          ((List.range' i k).map fun j =>
            .created (twapMarketOrder symbol side qp) (ids j))) := by
  intro k
  induction k with
  | zero => intro i h; rfl
  | succ k ih =>
    intro i h
    have hrec := ih (i + 1) (by omega)
    cases k with
    | zero =>
      have hlast : ¬ (i < n - 1) := by omega
      rw [List.range'_succ, twapLoop_cons, hok i, hrec]
      dsimp only
      rw [if_neg hlast]
      rfl
    | succ k2 =>
      have hlt : i < n - 1 := by omega
      rw [List.range'_succ, twapLoop_cons, hok i, hrec]
      dsimp only
      rw [if_pos hlt]
      rw [List.range'_succ, List.map_cons, List.map_cons, List.map_cons]
      rfl


lemma validate_positive_integer_pos (v : Int) (name : String) (n : Int)
    (h : validate_positive_integer v name = .ok n) : 0 < n ∧ n = v := by
  unfold validate_positive_integer at h
  by_cases hv : v ≤ 0
  · rw [if_pos hv] at h
    exact absurd h (by simp)
  · rw [if_neg hv] at h
    simp only [Except.ok.injEq] at h
    omega

lemma execute_twap_eq (oracle : Oracle) (symbol sym side vside : String)
    (q total : ℚ) (ng n ig interval : Int)
    (hsym : validate_symbol symbol = .ok sym)
    (hside : validate_side side = .ok vside)
    (hq : validate_quantity q = .ok total)
    (hn : validate_positive_integer ng ("number of orders") = .ok n)
    (hi : validate_positive_integer ig ("interval seconds") = .ok interval) :
    execute_twap oracle symbol side q ng ig =
      match twapLoop oracle sym vside (total / (n : ℚ)) n.toNat interval
          (List.range n.toNat) with
      | .ok (executed, evs) => .ok (executed, evs)
      | .error e => .error e := by
  rw [execute_twap, hsym, hside, hq, hn, hi]

lemma createdOrders_pacedTrace (s : Int) :
    ∀ (l : List Event), createdOrders (pacedTrace (.slept s) l) = createdOrders l
  | [] => rfl
  | [e] => rfl
  | e :: f :: t => by
    have ih := createdOrders_pacedTrace s (f :: t)
    simp only [pacedTrace, createdOrders, List.filterMap_cons] at ih ⊢
    rw [ih]

lemma createdOrders_map_created (o : Order) (ids : Nat → Nat) :
    ∀ (l : List Nat), createdOrders (l.map fun j => .created o (ids j)) =
      List.replicate l.length o
  | [] => rfl
  | j :: t => by
    have ih := createdOrders_map_created o ids t
    simp only [List.map_cons, createdOrders, List.filterMap_cons, List.length_cons,
      List.replicate_succ] at ih ⊢
    rw [ih]


/-- C3: for a validated TWAP run in which the exchange accepts every
slice, exactly `numOrders` MARKET orders are submitted, each of
quantity `totalQuantity / numOrders`, the slice quantities sum to
exactly `totalQuantity`, and the trace is the slices in sequence with
one pause of `intervalSeconds` between consecutive slices and no pause
after the last. -/
theorem twap_slices (oracle : Oracle) (ids : Nat → Nat)
    (hok : ∀ i, oracle i = .ok (ids i)) (symbol sym side vside : String)
    (q total : ℚ) (ng n ig interval : Int)
    (hsym : validate_symbol symbol = .ok sym)
    (hside : validate_side side = .ok vside)
    (hq : validate_quantity q = .ok total)
    (hn : validate_positive_integer ng ("number of orders") = .ok n)
    (hi : validate_positive_integer ig ("interval seconds") = .ok interval) :
    ∃ executed evs, execute_twap oracle symbol side q ng ig = .ok (executed, evs) ∧
      executed.length = n.toNat ∧
      createdOrders evs =
        List.replicate n.toNat (twapMarketOrder sym vside (total / (n : ℚ))) ∧
      ((createdOrders evs).map Order.quantity).sum = total ∧
      evs = pacedTrace (.slept interval)
        ((List.range n.toNat).map fun j =>
          .created (twapMarketOrder sym vside (total / (n : ℚ))) (ids j)) := by
  obtain ⟨hpos, -⟩ := validate_positive_integer_pos ng ("number of orders") n hn
  have htr := twapLoop_success_trace oracle ids hok sym vside (total / (n : ℚ))
    n.toNat interval n.toNat 0 (by omega)
  rw [← List.range_eq_range'] at htr
  refine ⟨(List.range n.toNat).map ids,
    pacedTrace (.slept interval)
      ((List.range n.toNat).map fun j =>
        .created (twapMarketOrder sym vside (total / (n : ℚ))) (ids j)),
    ?_, ?_, ?_, ?_, rfl⟩
  · rw [execute_twap_eq oracle symbol sym side vside q total ng n ig interval
      hsym hside hq hn hi, htr]
  · rw [List.length_map, List.length_range]
  · rw [createdOrders_pacedTrace, createdOrders_map_created, List.length_range]
  · rw [createdOrders_pacedTrace, createdOrders_map_created, List.length_range]
    rw [List.map_replicate, List.sum_replicate]
    have hne : ((n : ℚ)) ≠ 0 := by
      have : (0 : ℚ) < (n : ℚ) := by exact_mod_cast hpos
      exact ne_of_gt this
    have hcast : ((n.toNat : ℚ)) = (n : ℚ) := by
      have := Int.toNat_of_nonneg (le_of_lt hpos)
      exact_mod_cast congrArg (fun z : Int => (z : ℚ)) this
    rw [nsmul_eq_mul, hcast]
    simp only [twapMarketOrder]
    field_simp

/-- Witness for C3: a six-unit BUY split into three slices of two, with
a ten-second pause between consecutive slices. -/
theorem twap_slices_witness :
    ∃ executed evs,
      execute_twap (fun i => .ok i) "BTCUSDT" "BUY" 6 3 10 = .ok (executed, evs) ∧
      executed.length = (3 : Int).toNat ∧
      createdOrders evs =
        List.replicate (3 : Int).toNat (twapMarketOrder "BTCUSDT" "BUY" (6 / ((3 : Int) : ℚ))) ∧
      ((createdOrders evs).map Order.quantity).sum = 6 ∧
      evs = pacedTrace (.slept 10)
        ((List.range (3 : Int).toNat).map fun j =>
          .created (twapMarketOrder "BTCUSDT" "BUY" (6 / ((3 : Int) : ℚ))) j) :=
  twap_slices (fun i => .ok i) (fun i => i) (fun _ => rfl) "BTCUSDT" "BTCUSDT"
    "BUY" "BUY" 6 6 3 3 10 10 rfl rfl rfl rfl rfl


/-- C9: in a validated TWAP run in which the exchange never raises an
unexpected error, every pacing sleep in the trace immediately follows a
successfully executed slice; in particular, after a slice whose
submission fails with an exchange error, no pause occurs before the
next slice is attempted. -/
theorem twap_sleep_only_after_success (oracle : Oracle)
    (hno : ∀ i m, oracle i ≠ .otherErr m) (symbol sym side vside : String)
    (q total : ℚ) (ng n ig interval : Int)
    (hsym : validate_symbol symbol = .ok sym)
    (hside : validate_side side = .ok vside)
    (hq : validate_quantity q = .ok total)
    (hn : validate_positive_integer ng ("number of orders") = .ok n)
    (hi : validate_positive_integer ig ("interval seconds") = .ok interval) :
    ∃ executed evs, execute_twap oracle symbol side q ng ig = .ok (executed, evs) ∧
      executed = createdIds evs ∧
      sleptOnlyAfterCreated evs = true := by
  obtain ⟨executed, evs, heq, hids, hhead, hsoac⟩ :=
    twapLoop_no_other oracle hno sym vside (total / (n : ℚ)) n.toNat interval
      (List.range n.toNat)
  refine ⟨executed, evs, ?_, hids, hsoac⟩
  rw [execute_twap_eq oracle symbol sym side vside q total ng n ig interval
    hsym hside hq hn hi, heq]

/-- Witness for C9: three slices with the first submission rejected by
the exchange. -/
theorem twap_sleep_only_after_success_witness :
    ∃ executed evs,
      execute_twap (fun i => if i = 0 then .apiErr "rejected" else .ok i)
          "BTCUSDT" "BUY" 6 3 10 = .ok (executed, evs) ∧
      executed = createdIds evs ∧
      sleptOnlyAfterCreated evs = true :=
  twap_sleep_only_after_success (fun i => if i = 0 then .apiErr "rejected" else .ok i)
    (fun i m h => by
      by_cases hi : i = 0 <;> simp [hi] at h)
    "BTCUSDT" "BTCUSDT" "BUY" "BUY" 6 6 3 3 10 10 rfl rfl rfl rfl rfl

lemma placeGridOrders_cons (oracle : Oracle) (symbol : String) (qty cur : ℚ)
    (p : ℚ) (rest : List ℚ) (k : Nat) :
    placeGridOrders oracle symbol qty cur (p :: rest) k =
      if p < cur then
        match oracle k with
        | .ok oid =>
          match placeGridOrders oracle symbol qty cur rest (k + 1) with
          | .ok (buys, sells, evs) =>
            .ok (oid :: buys, sells, .created (gridOrder symbol "BUY" qty p) oid :: evs)
          | .error e => .error e
        | .apiErr m =>
          match placeGridOrders oracle symbol qty cur rest (k + 1) with
          | .ok (buys, sells, evs) =>
            .ok (buys, sells, .failed (gridOrder symbol "BUY" qty p) m :: evs)
          | .error e => .error e
        | .otherErr m => .error (.unexpectedError m)
      else if cur < p then
        match oracle k with
        | .ok oid =>
          match placeGridOrders oracle symbol qty cur rest (k + 1) with
          | .ok (buys, sells, evs) =>
            .ok (buys, oid :: sells, .created (gridOrder symbol "SELL" qty p) oid :: evs)
          | .error e => .error e
        | .apiErr m =>
          match placeGridOrders oracle symbol qty cur rest (k + 1) with
          | .ok (buys, sells, evs) =>
            .ok (buys, sells, .failed (gridOrder symbol "SELL" qty p) m :: evs)
          | .error e => .error e
        | .otherErr m => .error (.unexpectedError m)
      else
        placeGridOrders oracle symbol qty cur rest k := rfl

/-- C4 (amended): a `BinanceAPIException` raised by a placement inside
the grid or TWAP per-item loop is caught and suppressed, so the loop
finishes and the run returns its partial results; an unexpected
(non-exchange) error raised inside the loop body is not caught there
and aborts the whole run with the error propagating. -/
theorem loop_error_policy :
    (∀ (oracle : Oracle), (∀ k m, oracle k ≠ .otherErr m) →
      ∀ (symbol : String) (qty cur : ℚ) (prices : List ℚ) (k : Nat),
        ∃ r, placeGridOrders oracle symbol qty cur prices k = .ok r) ∧
    (∀ (oracle : Oracle), (∀ i m, oracle i ≠ .otherErr m) →
      ∀ (symbol side : String) (qp : ℚ) (n : Nat) (interval : Int) (l : List Nat),
        ∃ r, twapLoop oracle symbol side qp n interval l = .ok r) ∧
    (∀ (oracle : Oracle) (m : String) (k : Nat) (symbol : String) (qty cur p : ℚ)
      (rest : List ℚ), oracle k = .otherErr m → p ≠ cur →
        placeGridOrders oracle symbol qty cur (p :: rest) k =
          .error (.unexpectedError m)) ∧
    (∀ (oracle : Oracle) (m : String) (i : Nat) (symbol side : String) (qp : ℚ)
      (n : Nat) (interval : Int) (rest : List Nat), oracle i = .otherErr m →
        twapLoop oracle symbol side qp n interval (i :: rest) =
          .error (.unexpectedError m)) := by
  refine ⟨?_, ?_, ?_, ?_⟩
  · intro oracle hno symbol qty cur prices k
    obtain ⟨buys, sells, evs, heq, -⟩ :=
      placeGridOrders_no_other oracle hno symbol qty cur prices k
    exact ⟨(buys, sells, evs), heq⟩
  · intro oracle hno symbol side qp n interval l
    obtain ⟨executed, evs, heq, -⟩ :=
      twapLoop_no_other oracle hno symbol side qp n interval l
    exact ⟨(executed, evs), heq⟩
  · intro oracle m k symbol qty cur p rest hk hne
    rcases lt_or_gt_of_ne hne with h | h
    · rw [placeGridOrders_cons, if_pos h, hk]
    · rw [placeGridOrders_cons, if_neg (not_lt.mpr (le_of_lt h)), if_pos h, hk]
  · intro oracle m i symbol side qp n interval rest hi
    rw [twapLoop_cons, hi]

/-- Witness for C4: the suppression halves on an always-rejecting
exchange, and the abort halves on an unexpected error in the first
loop iteration. -/
theorem loop_error_policy_witness :
    (∃ r, placeGridOrders (fun _ => .apiErr "rejected") "BTCUSDT" 1 45000
        [43000, 47000] 0 = .ok r) ∧
    (∃ r, twapLoop (fun _ => .apiErr "rejected") "BTCUSDT" "BUY" 2 3 10
        [0, 1, 2] = .ok r) ∧
    placeGridOrders (fun _ => .otherErr "boom") "BTCUSDT" 1 45000
        [43000, 47000] 0 = .error (.unexpectedError "boom") ∧
    twapLoop (fun _ => .otherErr "boom") "BTCUSDT" "BUY" 2 3 10 [0, 1, 2] =
      .error (.unexpectedError "boom") := by
  refine ⟨?_, ?_, ?_, ?_⟩
  · exact loop_error_policy.1 (fun _ => .apiErr "rejected")
      (fun k m h => CallResult.noConfusion h) "BTCUSDT" 1 45000 [43000, 47000] 0
  · exact loop_error_policy.2.1 (fun _ => .apiErr "rejected")
      (fun i m h => CallResult.noConfusion h) "BTCUSDT" "BUY" 2 3 10 [0, 1, 2]
  · exact loop_error_policy.2.2.1 (fun _ => .otherErr "boom") "boom" 0 "BTCUSDT"
      1 45000 43000 [47000] rfl (by norm_num)
  · exact loop_error_policy.2.2.2 (fun _ => .otherErr "boom") "boom" 0 "BTCUSDT"
      "BUY" 2 3 10 [1, 2] rfl

/-- Counterexample for C4 as stated: an unexpected (non-exchange) error
raised while placing the very first grid level is not suppressed — the
whole `setup_grid_strategy` call aborts with the error instead of
returning partial results. -/
theorem unexpected_error_aborts_grid_run :
    setup_grid_strategy (fun k => if k = 0 then .otherErr "boom" else .ok k) (.ok 45000)
      "BTCUSDT" 1 43000 47000 3 = .error (.unexpectedError "boom") := by
  rw [setup_grid_strategy_eq (fun k => if k = 0 then .otherErr "boom" else .ok k)
    "BTCUSDT" "BTCUSDT" 1 1 43000 43000 47000 47000 3 3 45000 rfl rfl rfl rfl rfl
    (by norm_num) (by norm_num)]
  rw [show ((3 : Int).toNat) = 3 from rfl]
  rw [show gridPrices 43000 47000 3 = [43000, 45000, 47000] from by
    rw [gridPrices]; norm_num [List.range_succ]]
  rfl



/-- Counterexample for C7 as stated: with `numGrids = 1` the call does
not fail with a `ValidationError` — validation passes (1 is a positive
integer) and the grid-step computation divides by zero.  The ticker
argument is an error value, showing the failure happens before any
network call is consulted. -/
theorem num_grids_one_not_validation_error :
    setup_grid_strategy (fun k => .ok k) (.error (.binanceAPIException "network"))
        "BTCUSDT" 1 43000 47000 1 = .error .zeroDivisionError ∧
    PyError.zeroDivisionError ≠ PyError.validationError "number of grids must be greater than 0" := by
  constructor
  · rfl
  · intro h
    exact PyError.noConfusion h

/-- C7 (amended): `numGrids ≤ 0` is rejected with a `ValidationError`
before any network call; `numGrids = 1` passes validation and fails
before any network call with a `ZeroDivisionError` from the grid-step
computation `(upperPrice - lowerPrice) / (numGrids - 1)`, not a
`ValidationError`. -/
theorem num_grids_range_check (symbol sym : String) (q vq lp vlow up vup : ℚ)
    (hsym : validate_symbol symbol = .ok sym)
    (hq : validate_quantity q = .ok vq)
    (hlow : validate_price lp ("lower price") = .ok vlow)
    (hup : validate_price up ("upper price") = .ok vup)
    (hlt : vlow < vup) :
    (∀ (ng : Int), ng ≤ 0 → ∀ (oracle : Oracle) (ticker : Except PyError ℚ),
      setup_grid_strategy oracle ticker symbol q lp up ng =
        .error (.validationError ("number of grids must be greater than 0"))) ∧
    (∀ (oracle : Oracle) (ticker : Except PyError ℚ),
      setup_grid_strategy oracle ticker symbol q lp up 1 =
        .error .zeroDivisionError) := by
  constructor
  · intro ng hng oracle ticker
    rw [setup_grid_strategy, hsym, hq, hlow, hup]
    rw [validate_positive_integer, if_pos hng]
    rfl
  · intro oracle ticker
    rw [setup_grid_strategy, hsym, hq, hlow, hup]
    rw [validate_positive_integer, if_neg (by omega : ¬ ((1 : Int) ≤ 0))]
    dsimp only
    rw [if_neg (not_le.mpr hlt), if_pos (by omega : (1 : Int) - 1 = 0)]

/-- Witness for C7 (amended) at `numGrids = 0` and `numGrids = 1`. -/
theorem num_grids_range_check_witness :
    setup_grid_strategy (fun k => .ok k) (.error (.binanceAPIException "network"))
        "BTCUSDT" 1 43000 47000 0 =
      .error (.validationError ("number of grids must be greater than 0")) ∧
    setup_grid_strategy (fun k => .ok k) (.error (.binanceAPIException "network"))
        "BTCUSDT" 1 43000 47000 1 = .error .zeroDivisionError := by
  have h := num_grids_range_check "BTCUSDT" "BTCUSDT" 1 1 43000 43000 47000 47000
    rfl rfl rfl rfl (by norm_num)
  exact ⟨h.1 0 (by omega) (fun k => .ok k) (.error (.binanceAPIException "network")),
    h.2 (fun k => .ok k) (.error (.binanceAPIException "network"))⟩


/-- C6: on validated inputs, `place_oco_order` closes on the side
opposite to the validated input side, first submits the TAKE_PROFIT
reduce-only order with limit price and trigger both equal to `price`,
then the STOP reduce-only order with trigger `stopPrice` and limit
`stopLimitPrice`, both with the same closing side and quantity; and
whenever the take-profit submission raises, the error propagates and
the result does not depend on the stop submission at all (it is never
attempted). -/
theorem oco_pairing (symbol sym side vside : String) (q vq p vp sp vsp slp vslp : ℚ)
    (hsym : validate_symbol symbol = .ok sym)
    (hside : validate_side side = .ok vside)
    (hq : validate_quantity q = .ok vq)
    (hp : validate_price p ("limit price") = .ok vp)
    (hsp : validate_price sp ("stop price") = .ok vsp)
    (hslp : validate_price slp ("stop limit price") = .ok vslp) :
    (∀ (oracle : Oracle) (tpId slId : Nat), oracle 0 = .ok tpId → oracle 1 = .ok slId →
      place_oco_order oracle symbol side q p sp slp =
        .ok ((tpId, slId),
          [.created ⟨sym, if vside = "BUY" then "SELL" else "BUY", "TAKE_PROFIT",
              some "GTC", vq, some vp, some vp, some "true"⟩ tpId,
           .created ⟨sym, if vside = "BUY" then "SELL" else "BUY", "STOP",
              some "GTC", vq, some vslp, some vsp, some "true"⟩ slId])) ∧
    (∀ (oracle : Oracle) (m : String), oracle 0 = .apiErr m →
      place_oco_order oracle symbol side q p sp slp =
        .error (.binanceAPIException m)) ∧
    (∀ (oracle : Oracle) (m : String), oracle 0 = .otherErr m →
      place_oco_order oracle symbol side q p sp slp =
        .error (.unexpectedError m)) := by
  refine ⟨?_, ?_, ?_⟩
  · intro oracle tpId slId h0 h1
    rw [place_oco_order, hsym, hside, hq, hp, hsp, hslp]
    dsimp only
    rw [h0, h1]
  · intro oracle m h0
    rw [place_oco_order, hsym, hside, hq, hp, hsp, hslp]
    dsimp only
    rw [h0]
  · intro oracle m h0
    rw [place_oco_order, hsym, hside, hq, hp, hsp, hslp]
    dsimp only
    rw [h0]

/-- Witness for C6: a BUY position closed by a SELL take-profit at
46000 and a SELL stop 43000/42900; and the propagation of a
take-profit submission that raises — both as an exchange rejection and
as an unexpected error. -/
theorem oco_pairing_witness :
    place_oco_order (fun i => .ok (i + 10)) "BTCUSDT" "BUY" 1 46000 43000 42900 =
      .ok ((10, 11),
        [.created ⟨"BTCUSDT", if "BUY" = "BUY" then "SELL" else "BUY", "TAKE_PROFIT",
            some "GTC", 1, some 46000, some 46000, some "true"⟩ 10,
         .created ⟨"BTCUSDT", if "BUY" = "BUY" then "SELL" else "BUY", "STOP",
            some "GTC", 1, some 42900, some 43000, some "true"⟩ 11]) ∧
    place_oco_order (fun _ => .apiErr "margin") "BTCUSDT" "BUY" 1 46000 43000 42900 =
      .error (.binanceAPIException "margin") ∧
    place_oco_order (fun _ => .otherErr "timeout") "BTCUSDT" "BUY" 1 46000 43000 42900 =
      .error (.unexpectedError "timeout") := by
  have h := oco_pairing "BTCUSDT" "BTCUSDT" "BUY" "BUY" 1 1 46000 46000 43000 43000
    42900 42900 rfl rfl rfl rfl rfl rfl
  exact ⟨h.1 (fun i => .ok (i + 10)) 10 11 rfl rfl,
    h.2.1 (fun _ => .apiErr "margin") "margin" rfl,
    h.2.2 (fun _ => .otherErr "timeout") "timeout" rfl⟩

/-- C8: `validate_stop_limit_prices` raises a `ValidationError` for
side BUY exactly when the stop price is strictly below the limit price
(so equality succeeds), and for side SELL exactly when the stop price
is strictly above the limit price; in particular (100, 99, BUY)
succeeds and (99, 100, BUY) fails. -/
theorem stop_limit_price_rule :
    (∀ stop limit : ℚ,
      ((∃ m, validate_stop_limit_prices stop limit "BUY" =
          .error (.validationError m)) ↔ stop < limit) ∧
      ((∃ m, validate_stop_limit_prices stop limit "SELL" =
          .error (.validationError m)) ↔ limit < stop)) ∧
    validate_stop_limit_prices 100 99 "BUY" = .ok () ∧
    (∃ m, validate_stop_limit_prices 99 100 "BUY" = .error (.validationError m)) := by
  refine ⟨?_, rfl, ⟨"For BUY stop-limit: stop price should be >= limit price", rfl⟩⟩
  intro stop limit
  constructor
  · constructor
    · rintro ⟨m, hm⟩
      by_cases h : stop < limit
      · exact h
      · rw [validate_stop_limit_prices, if_pos rfl, if_neg h] at hm
        exact Except.noConfusion hm
    · intro h
      refine ⟨"For BUY stop-limit: stop price should be >= limit price", ?_⟩
      rw [validate_stop_limit_prices, if_pos rfl, if_pos h]
  · constructor
    · rintro ⟨m, hm⟩
      by_cases h : stop > limit
      · exact h
      · rw [validate_stop_limit_prices,
          if_neg (show ¬(("SELL" : String) = "BUY") by decide), if_neg h] at hm
        exact Except.noConfusion hm
    · intro h
      refine ⟨"For SELL stop-limit: stop price should be <= limit price", ?_⟩
      rw [validate_stop_limit_prices,
        if_neg (show ¬(("SELL" : String) = "BUY") by decide), if_pos h]

/-- C10: for every side value other than the exact string BUY
(lowercase, garbage, anything), `validate_stop_limit_prices` runs the
SELL branch: it behaves exactly as with side SELL, succeeding if and
only if the stop price is at most the limit price, and never raises on
account of the side value itself. -/
theorem stop_limit_side_fallthrough (side : String) (hside : side ≠ "BUY") :
    ∀ stop limit : ℚ,
      validate_stop_limit_prices stop limit side =
        validate_stop_limit_prices stop limit "SELL" ∧
      (validate_stop_limit_prices stop limit side = .ok () ↔ stop ≤ limit) := by
  intro stop limit
  have hsell : validate_stop_limit_prices stop limit side =
      validate_stop_limit_prices stop limit "SELL" := by
    simp only [validate_stop_limit_prices]
    rw [if_neg hside, if_neg (show ¬(("SELL" : String) = "BUY") by decide)]
  refine ⟨hsell, ?_⟩
  rw [validate_stop_limit_prices, if_neg hside]
  by_cases h : stop > limit
  · rw [if_pos h]
    constructor
    · intro hc
      exact Except.noConfusion hc
    · intro hc
      exact absurd hc (not_le.mpr h)
  · rw [if_neg h]
    exact ⟨fun _ => not_lt.mp h, fun _ => rfl⟩

/-- Witness for C10: lowercase side value applies the SELL rule. -/
theorem stop_limit_side_fallthrough_witness :
    validate_stop_limit_prices 99 100 "buy" = validate_stop_limit_prices 99 100 "SELL" ∧
    (validate_stop_limit_prices 99 100 "buy" = .ok () ↔ (99 : ℚ) ≤ 100) :=
  stop_limit_side_fallthrough "buy" (by decide) 99 100


end BinanceBot
